import Mathlib

/-!
Verification of the DollarNow rate-aggregation worker (`src/index.ts`).

The worker is embedded shallowly:

* JavaScript numbers are modelled as rationals (`ℚ`);
* a JavaScript object `{ [key: string]: number }` is modelled as an
  association list `RateMapping` with JS assignment semantics
  (`setRate` updates the value in place or appends a fresh key);
* `parseFloat` is modelled on the numeric shapes the providers emit:
  optional sign, integer digits, optional fractional digits
  (no exponent), returning `none` where JS returns `NaN`;
* each fetcher in `apiFetchers` becomes a function from its inputs
  (credential string, upstream HTTP status, decoded JSON body) to
  `Except String RateMapping`, a thrown `Error` becoming `.error`;
* the `fetch` handler becomes `handleFetch`, taking the cached response
  (if any), the list of fetcher outcomes in declared order, and the
  current unix time; it returns the response sent to the client, the
  value passed to `cache.put` (if any), and how many fetchers ran.
-/

namespace DollarNow

/-- `FIAT_SYMBOLS` from the configuration section of `src/index.ts`. -/
def FIAT_SYMBOLS : List String :=
  ["BRL", "EUR", "JPY", "GBP", "AUD", "CAD", "CHF", "CNY", "HKD", "NZD",
   "SEK", "INR", "PKR", "IDR", "MXN"]

/-- `ASSET_SYMBOLS` from the configuration section of `src/index.ts`. -/
def ASSET_SYMBOLS : List String := ["BTC", "XAU", "XAG", "XBR"]

/-- Value of a digit string, most significant first. -/
def digitsToNat (cs : List Char) : Nat :=
  cs.foldl (fun n c => 10 * n + (c.toNat - 48)) 0

/-- Model of JavaScript `parseFloat` on the numeric literals the rate
providers emit: optional sign, then decimal digits with an optional
fractional part, reading the longest such leading portion of the string;
`none` models `NaN` (no digit could be read). -/
def parseFloat (s : String) : Option ℚ :=
  let cs := s.toList
  let sgn : ℚ × List Char :=
    match cs with
    | '-' :: t => (-1, t)
    | '+' :: t => (1, t)
    | _ => (1, cs)
  let intPart := sgn.2.takeWhile Char.isDigit
  let rest := sgn.2.dropWhile Char.isDigit
  let fracPart :=
    match rest with
    | '.' :: t => t.takeWhile Char.isDigit
    | _ => []
  if intPart.isEmpty && fracPart.isEmpty then none
  else some (sgn.1 * ((digitsToNat intPart : ℚ) + (digitsToNat fracPart : ℚ) / 10 ^ fracPart.length))

/-- The `{ [key: string]: number }` rate objects of `src/index.ts`. -/
abbrev RateMapping := List (String × ℚ)

/-- JS object assignment `rates[k] = v`: replace the value at an existing
key, otherwise append the new key. -/
def setRate : RateMapping → String → ℚ → RateMapping
  | [], k, v => [(k, v)]
  | p :: rest, k, v => if p.1 = k then (k, v) :: rest else p :: setRate rest k v

/-- JS object read `rates[k]`, `none` for an absent key. -/
def lookupRate : RateMapping → String → Option ℚ
  | [], _ => none
  | p :: rest, k => if p.1 = k then some p.2 else lookupRate rest k

/-- `response.ok` of the Fetch API: status in the 2xx range. -/
def resOk (status : Nat) : Bool :=
  decide (200 ≤ status) && decide (status < 300)

/-- The `AwesomeApiItem` interface of `src/index.ts`. -/
structure AwesomeApiItem where
  code : String
  codein : String
  name : String
  bid : String
  timestamp : String
  deriving DecidableEq

/-- Key derivation of the Awesome adapter:
`item.code === 'USD' ? item.codein : item.code`. -/
def awesomeKey (item : AwesomeApiItem) : String :=
  if item.code = "USD" then item.codein else item.code

/-- One iteration of the Awesome adapter's `for` loop: skip an item whose
`bid` fails to parse, otherwise `rates[key] = value` (no inversion). -/
def awesomeStep (rates : RateMapping) (item : AwesomeApiItem) : RateMapping :=
  match parseFloat item.bid with
  | none => rates
  | some v => setRate rates (awesomeKey item) v

/-- The rates object the Awesome adapter builds from the decoded response. -/
def awesomeRates (data : List AwesomeApiItem) : RateMapping :=
  data.foldl awesomeStep []

/-- `apiFetchers[0]` (Awesome API): credential check, HTTP status check,
normalization, empty-result check; a `throw` becomes `.error`. -/
def awesomeFetch (token : String) (status : Nat) (data : List AwesomeApiItem) :
    Except String RateMapping :=
  if token = "" then Except.error "AWESOME_API_TOKEN is not configured."
  else if !resOk status then Except.error "Awesome API request failed"
  else
    let rates := awesomeRates data
    if rates.isEmpty then Except.error "Awesome API returned no valid rates."
    else Except.ok rates

/-- One element of the Wise `/v1/rates?source=USD` response array. -/
structure WiseRateInfo where
  target : String
  rate : ℚ
  deriving DecidableEq

/-- One iteration of the Wise adapter's `for` loop: keep an entry only if
its target is in the needed (fiat) symbol set. -/
def wiseStep (rates : RateMapping) (info : WiseRateInfo) : RateMapping :=
  if FIAT_SYMBOLS.contains info.target then setRate rates info.target info.rate
  else rates

/-- The rates object the Wise adapter builds from the decoded response. -/
def wiseRates (data : List WiseRateInfo) : RateMapping :=
  data.foldl wiseStep []

/-- `apiFetchers[1]` (Wise API): credential check, HTTP status check,
fiat-filtered normalization, empty-result check. -/
def wiseFetch (key : String) (status : Nat) (data : List WiseRateInfo) :
    Except String RateMapping :=
  if key = "" then Except.error "WISE_API_KEY is not configured."
  else if !resOk status then Except.error "Wise API request failed"
  else
    let rates := wiseRates data
    if rates.isEmpty then Except.error "Wise API returned no valid rates for needed symbols."
    else Except.ok rates

/-- The JSON body of a worker response: either the failure payload or the
success payload with its `rates` and `updated_at` fields. -/
inductive Body where
  | failure (error : String)
  | success (rates : RateMapping) (updatedAt : Nat)
  deriving DecidableEq

/-- A `Response` as the worker constructs it: status, JSON body, headers. -/
structure WorkerResponse where
  status : Nat
  body : Body
  headers : List (String × String)
  deriving DecidableEq

def jsonHeader : String × String := ("Content-Type", "application/json")

def corsHeader : String × String := ("Access-Control-Allow-Origin", "*")

def cacheControlHeader : String × String := ("Cache-Control", "public, max-age=90")

/-- What one run of the `fetch` handler produced: the response returned to
the client, the response written to the cache via
`ctx.waitUntil(cache.put ...)` (if any), and how many fetchers were
invoked. -/
structure HandleResult where
  response : WorkerResponse
  cachePut : Option WorkerResponse
  fetchersInvoked : Nat
  deriving DecidableEq

/-- The fallback loop of the handler over the fetcher outcomes in declared
order: a thrown error or an empty rates object moves on to the next
fetcher, the first non-empty rates object is adopted wholesale and the
loop breaks. Returns the adopted mapping (`[]` if the list is exhausted)
and the number of fetchers invoked. -/
def runFallback : List (Except String RateMapping) → RateMapping × Nat
  | [] => ([], 0)
  | Except.ok rates :: rest =>
    if rates.isEmpty then
      let r := runFallback rest
      (r.1, r.2 + 1)
    else (rates, 1)
  | Except.error _ :: rest =>
    let r := runFallback rest
    (r.1, r.2 + 1)

/-- The `fetch` handler of `src/index.ts`: cache hit returns the cached
response untouched with no fetcher invoked; on a miss the fallback loop
runs, an empty combined result yields an uncached 503 failure response,
otherwise `USD = 1` is injected, the 200 success response is built with
the current unix time, and the same response is written to the cache. -/
def handleFetch (cached : Option WorkerResponse)
    (results : List (Except String RateMapping)) (now : Nat) : HandleResult :=
  match cached with
  | some r => ⟨r, none, 0⟩
  | none =>
    let fr := runFallback results
    if fr.1.isEmpty then
      ⟨⟨503, Body.failure "All primary API sources are unavailable.",
        [jsonHeader, corsHeader]⟩, none, fr.2⟩
    else
      let rates := setRate fr.1 "USD" 1
      let resp : WorkerResponse :=
        ⟨200, Body.success rates now, [jsonHeader, corsHeader, cacheControlHeader]⟩
      ⟨resp, some resp, fr.2⟩

/-- A fetcher outcome the fallback loop does not adopt: a thrown error or
an empty rates object. -/
def failedOrEmpty : Except String RateMapping → Bool
  | Except.ok m => m.isEmpty
  | Except.error _ => true

/-- Whether a string contains any decimal digit character. -/
def containsDigits (s : String) : Bool :=
  s.toList.any Char.isDigit

/-! ### Helper lemmas -/

theorem lookupRate_setRate_self (m : RateMapping) (k : String) (v : ℚ) :
    lookupRate (setRate m k v) k = some v := by
  induction m with
  | nil => simp [setRate, lookupRate]
  | cons p rest ih =>
    by_cases h : p.1 = k
    · simp [setRate, h, lookupRate]
    · simp [setRate, h, lookupRate, ih]

theorem lookupRate_setRate_ne (m : RateMapping) (k k' : String) (v : ℚ)
    (hne : k' ≠ k) : lookupRate (setRate m k v) k' = lookupRate m k' := by
  induction m with
  | nil =>
    have hk : k ≠ k' := fun hc => hne hc.symm
    simp [setRate, lookupRate, hk]
  | cons p rest ih =>
    by_cases h : p.1 = k
    · have hk : k ≠ k' := fun hc => hne hc.symm
      have hp : p.1 ≠ k' := fun hc => hne (hc.symm.trans h)
      simp [setRate, h, lookupRate, hk, hp]
    · by_cases hq : p.1 = k'
      · simp [setRate, h, lookupRate, hq, hne]
      · simp [setRate, h, lookupRate, hq, ih]

theorem lookupRate_setRate_cases (m : RateMapping) (k : String) (v : ℚ)
    (k' : String) (w : ℚ) (h : lookupRate (setRate m k v) k' = some w) :
    (k' = k ∧ w = v) ∨ lookupRate m k' = some w := by
  by_cases hk : k' = k
  · subst hk
    rw [lookupRate_setRate_self] at h
    exact Or.inl ⟨rfl, (Option.some_inj.mp h).symm⟩
  · rw [lookupRate_setRate_ne m k k' v hk] at h
    exact Or.inr h

theorem lookupRate_setRate_isSome (m : RateMapping) (k k' : String) (v : ℚ)
    (h : (lookupRate m k').isSome = true) :
    (lookupRate (setRate m k v) k').isSome = true := by
  by_cases hk : k' = k
  · subst hk; simp [lookupRate_setRate_self]
  · rw [lookupRate_setRate_ne m k k' v hk]; exact h

theorem awesomeFold_pos (data : List AwesomeApiItem) :
    ∀ acc : RateMapping,
      (∀ it ∈ data, ∀ v, parseFloat it.bid = some v → 0 < v) →
      (∀ k w, lookupRate acc k = some w → 0 < w) →
      ∀ k w, lookupRate (data.foldl awesomeStep acc) k = some w → 0 < w := by
  induction data with
  | nil => intro acc _ hacc; simpa using hacc
  | cons it rest ih =>
    intro acc hdata hacc
    simp only [List.foldl_cons]
    apply ih
    · intro it2 h2 v hv
      exact hdata it2 (List.mem_cons_of_mem _ h2) v hv
    · intro k w hk
      unfold awesomeStep at hk
      cases hparse : parseFloat it.bid with
      | none => rw [hparse] at hk; exact hacc k w hk
      | some v =>
        rw [hparse] at hk
        rcases lookupRate_setRate_cases _ _ _ _ _ hk with ⟨_, hwv⟩ | hold
        · rw [hwv]; exact hdata it (List.mem_cons_self it rest) v hparse
        · exact hacc k w hold

theorem wiseFold_pos (data : List WiseRateInfo) :
    ∀ acc : RateMapping,
      (∀ info ∈ data, 0 < info.rate) →
      (∀ k w, lookupRate acc k = some w → 0 < w) →
      ∀ k w, lookupRate (data.foldl wiseStep acc) k = some w → 0 < w := by
  induction data with
  | nil => intro acc _ hacc; simpa using hacc
  | cons info rest ih =>
    intro acc hdata hacc
    simp only [List.foldl_cons]
    apply ih
    · intro i2 h2
      exact hdata i2 (List.mem_cons_of_mem _ h2)
    · intro k w hk
      unfold wiseStep at hk
      by_cases hc : FIAT_SYMBOLS.contains info.target
      · rw [if_pos hc] at hk
        rcases lookupRate_setRate_cases _ _ _ _ _ hk with ⟨_, hwv⟩ | hold
        · subst hwv; exact hdata info (List.mem_cons_self info rest)
        · exact hacc k w hold
      · rw [if_neg hc] at hk; exact hacc k w hk

theorem wiseFold_keys (data : List WiseRateInfo) :
    ∀ acc : RateMapping,
      (∀ k w, lookupRate acc k = some w → k ∈ FIAT_SYMBOLS) →
      ∀ k w, lookupRate (data.foldl wiseStep acc) k = some w → k ∈ FIAT_SYMBOLS := by
  induction data with
  | nil => intro acc hacc; simpa using hacc
  | cons info rest ih =>
    intro acc hacc
    simp only [List.foldl_cons]
    apply ih
    intro k w hk
    unfold wiseStep at hk
    by_cases hc : FIAT_SYMBOLS.contains info.target
    · rw [if_pos hc] at hk
      rcases lookupRate_setRate_cases _ _ _ _ _ hk with ⟨hkk, _⟩ | hold
      · subst hkk; exact List.elem_iff.mp hc
      · exact hacc k w hold
    · rw [if_neg hc] at hk; exact hacc k w hk

theorem awesomeFold_isSome (data : List AwesomeApiItem) :
    ∀ (acc : RateMapping) (k : String), (lookupRate acc k).isSome = true →
      (lookupRate (data.foldl awesomeStep acc) k).isSome = true := by
  induction data with
  | nil => intro acc k h; simpa using h
  | cons it rest ih =>
    intro acc k h
    simp only [List.foldl_cons]
    apply ih
    unfold awesomeStep
    cases hparse : parseFloat it.bid with
    | none => exact h
    | some v => exact lookupRate_setRate_isSome _ _ _ _ h

theorem awesomeFold_mem (data : List AwesomeApiItem) (it : AwesomeApiItem)
    (v : ℚ) (hv : parseFloat it.bid = some v) :
    ∀ acc : RateMapping, it ∈ data →
      (lookupRate (data.foldl awesomeStep acc) (awesomeKey it)).isSome = true := by
  induction data with
  | nil => intro acc h; cases h
  | cons a rest ih =>
    intro acc hmem
    simp only [List.foldl_cons]
    rcases List.mem_cons.mp hmem with heq | hmem2
    · subst heq
      apply awesomeFold_isSome
      unfold awesomeStep
      rw [hv]
      simp [lookupRate_setRate_self]
    · exact ih _ hmem2

theorem runFallback_first (pre post : List (Except String RateMapping))
    (m : RateMapping) (hpre : ∀ r ∈ pre, failedOrEmpty r = true) (hm : m ≠ []) :
    runFallback (pre ++ Except.ok m :: post) = (m, pre.length + 1) := by
  induction pre with
  | nil =>
    have : m.isEmpty = false := by
      cases m with
      | nil => exact absurd rfl hm
      | cons a t => rfl
    simp [runFallback, this]
  | cons r rest ih =>
    have hr : failedOrEmpty r = true := hpre r (List.mem_cons_self r rest)
    have hrest : ∀ x ∈ rest, failedOrEmpty x = true :=
      fun x hx => hpre x (List.mem_cons_of_mem _ hx)
    cases r with
    | ok mm =>
      have hmm : mm.isEmpty = true := hr
      simp [runFallback, hmm, ih hrest]
    | error e =>
      simp [runFallback, ih hrest]

theorem runFallback_allFailed (results : List (Except String RateMapping))
    (h : ∀ r ∈ results, failedOrEmpty r = true) :
    runFallback results = ([], results.length) := by
  induction results with
  | nil => rfl
  | cons r rest ih =>
    have hr : failedOrEmpty r = true := h r (List.mem_cons_self r rest)
    have hrest : ∀ x ∈ rest, failedOrEmpty x = true :=
      fun x hx => h x (List.mem_cons_of_mem _ hx)
    cases r with
    | ok mm =>
      have hmm : mm.isEmpty = true := hr
      simp [runFallback, hmm, ih hrest]
    | error e =>
      simp [runFallback, ih hrest]

theorem handleFetch_success (results : List (Except String RateMapping))
    (now : Nat) (h : (runFallback results).1 ≠ []) :
    handleFetch none results now =
      ⟨⟨200, Body.success (setRate (runFallback results).1 "USD" 1) now,
        [jsonHeader, corsHeader, cacheControlHeader]⟩,
       some ⟨200, Body.success (setRate (runFallback results).1 "USD" 1) now,
        [jsonHeader, corsHeader, cacheControlHeader]⟩,
       (runFallback results).2⟩ := by
  have : (runFallback results).1.isEmpty = false := by
    cases hc : (runFallback results).1 with
    | nil => exact absurd hc h
    | cons a t => rfl
  simp [handleFetch, this]

theorem handleFetch_failure (results : List (Except String RateMapping))
    (now : Nat) (h : (runFallback results).1 = []) :
    handleFetch none results now =
      ⟨⟨503, Body.failure "All primary API sources are unavailable.",
        [jsonHeader, corsHeader]⟩, none, (runFallback results).2⟩ := by
  have : (runFallback results).1.isEmpty = true := by rw [h]; rfl
  simp [handleFetch, this]

/-! ### Claims -/

/-- C1 counterexample: the direct-pair adapter does not invert a non-USD-base
pair. For the pair `BTC-USD` with bid `60000` the adapter stores
`rates.BTC = 60000`, not `1 / 60000` as the claim states. -/
theorem awesome_inversion_refuted :
    lookupRate (awesomeRates [⟨"BTC", "USD", "Bitcoin", "60000", "1700000000"⟩]) "BTC"
      = some 60000 ∧ (60000 : ℚ) ≠ 1 / 60000 := by
  constructor
  · simp +decide [awesomeRates, awesomeStep, awesomeKey, parseFloat, digitsToNat,
      setRate, lookupRate]
  · norm_num

/-- C1 (amended): for every returned pair whose bid parses as a number, the
parsed value `v` is stored unchanged — under the quote symbol (`codein`)
when the base is USD, and under the base symbol (`code`) otherwise; no
inversion is performed in either case. -/
theorem awesome_stores_value_unchanged (l : List AwesomeApiItem)
    (item : AwesomeApiItem) (v : ℚ) (hv : parseFloat item.bid = some v) :
    lookupRate (awesomeRates (l ++ [item])) (awesomeKey item) = some v ∧
    awesomeKey item = (if item.code = "USD" then item.codein else item.code) := by
  refine ⟨?_, rfl⟩
  unfold awesomeRates
  rw [List.foldl_append]
  simp only [List.foldl_cons, List.foldl_nil]
  unfold awesomeStep
  rw [hv]
  exact lookupRate_setRate_self _ _ _

/-- Witness for C1: the pair `USD-BRL` with bid `5` yields `rates.BRL = 5`. -/
theorem awesome_stores_value_unchanged_witness :
    lookupRate (awesomeRates [⟨"USD", "BRL", "Dolar", "5", "0"⟩])
        (awesomeKey ⟨"USD", "BRL", "Dolar", "5", "0"⟩) = some 5 ∧
      awesomeKey ⟨"USD", "BRL", "Dolar", "5", "0"⟩ =
        (if ("USD" : String) = "USD" then "BRL" else "USD") :=
  awesome_stores_value_unchanged [] ⟨"USD", "BRL", "Dolar", "5", "0"⟩ 5
    (by simp +decide [parseFloat, digitsToNat])

/-- C2 counterexample: the winning provider supplies the per-pair timestamp
`100`, yet `updated_at` is the current time `999`, not the maximum supplied
timestamp `100`. -/
theorem updated_at_ignores_provider_timestamps :
    (handleFetch none
        [awesomeFetch "tok" 200 [⟨"USD", "BRL", "Dolar", "5.00", "100"⟩]]
        999).response.body
      = Body.success [("BRL", 5), ("USD", 1)] 999 ∧ (999 : Nat) ≠ 100 := by
  constructor
  · simp +decide [handleFetch, runFallback, awesomeFetch, awesomeRates, awesomeStep,
      awesomeKey, parseFloat, digitsToNat, setRate, resOk]
  · decide

/-- C2 (amended): `updated_at` of every successful response equals the
current time at the moment of response construction, regardless of any
per-pair timestamps the winning provider supplied. -/
theorem updated_at_equals_current_time (results : List (Except String RateMapping))
    (now : Nat) (rates : RateMapping) (t : Nat)
    (h : (handleFetch none results now).response.body = Body.success rates t) :
    t = now := by
  by_cases hc : (runFallback results).1 = []
  · rw [handleFetch_failure results now hc] at h
    exact Body.noConfusion h
  · rw [handleFetch_success results now hc] at h
    have h' : Body.success (setRate (runFallback results).1 "USD" 1) now
        = Body.success rates t := h
    injection h' with h1 h2
    exact h2.symm

/-- Witness for C2 (amended) at one fetcher outcome and current time 7. -/
theorem updated_at_equals_current_time_witness :
    (handleFetch none [Except.ok [("EUR", (2 : ℚ))]] 7).response.body
        = Body.success (setRate [("EUR", (2 : ℚ))] "USD" 1) 7 ∧ (7 : Nat) = 7 :=
  ⟨rfl, updated_at_equals_current_time [Except.ok [("EUR", (2 : ℚ))]] 7
    (setRate [("EUR", (2 : ℚ))] "USD" 1) 7 rfl⟩

/-- C3: the fallback loop, run on any sequence where every fetcher before the
winner failed or returned an empty mapping and the winner returned the
non-empty mapping `m`, adopts `m` wholesale as the result and invokes
exactly the fetchers up to and including the winner — the result does not
depend on the fetchers after the winner, and nothing from earlier fetchers
is merged in. -/
theorem fallback_first_nonempty_wins
    (pre post : List (Except String RateMapping)) (m : RateMapping)
    (hpre : ∀ r ∈ pre, failedOrEmpty r = true) (hm : m ≠ []) :
    runFallback (pre ++ Except.ok m :: post) = (m, pre.length + 1) :=
  runFallback_first pre post m hpre hm

/-- Witness for C3: an error then an empty mapping, then the winner; the
fourth fetcher is never reached. -/
theorem fallback_first_nonempty_wins_witness :
    runFallback [Except.error "boom", Except.ok [],
        Except.ok [("BRL", (5 : ℚ))], Except.ok [("EUR", (2 : ℚ))]]
      = ([("BRL", (5 : ℚ))], 3) :=
  fallback_first_nonempty_wins [Except.error "boom", Except.ok []]
    [Except.ok [("EUR", (2 : ℚ))]] [("BRL", (5 : ℚ))]
    (by decide) (by decide)

/-- C4: when every fetcher fails or returns an empty mapping the handler
returns status 503 with the failure body, and nothing is written to the
cache (`cachePut = none`). -/
theorem all_providers_failed_503_uncached
    (results : List (Except String RateMapping)) (now : Nat)
    (h : ∀ r ∈ results, failedOrEmpty r = true) :
    handleFetch none results now =
      ⟨⟨503, Body.failure "All primary API sources are unavailable.",
        [jsonHeader, corsHeader]⟩, none, results.length⟩ := by
  have hrf := runFallback_allFailed results h
  have hf := handleFetch_failure results now (by rw [hrf])
  rw [hf, hrf]

/-- Witness for C4: one thrown error and one empty mapping. -/
theorem all_providers_failed_503_uncached_witness :
    handleFetch none [Except.error "a", Except.ok []] 5 =
      ⟨⟨503, Body.failure "All primary API sources are unavailable.",
        [jsonHeader, corsHeader]⟩, none, 2⟩ :=
  all_providers_failed_503_uncached [Except.error "a", Except.ok []] 5 (by decide)

/-- C5: every successful response maps USD to exactly 1 — the entry is set
unconditionally after aggregation, overwriting any provider-supplied USD
value. -/
theorem usd_always_one (results : List (Except String RateMapping)) (now : Nat)
    (rates : RateMapping) (t : Nat)
    (h : (handleFetch none results now).response.body = Body.success rates t) :
    lookupRate rates "USD" = some 1 := by
  by_cases hc : (runFallback results).1 = []
  · rw [handleFetch_failure results now hc] at h
    exact Body.noConfusion h
  · rw [handleFetch_success results now hc] at h
    have h' : Body.success (setRate (runFallback results).1 "USD" 1) now
        = Body.success rates t := h
    injection h' with h1 h2
    rw [← h1]
    exact lookupRate_setRate_self _ _ _

/-- Witness for C5: a winning provider that itself emitted `USD = 7`; the
injected value 1 wins. -/
theorem usd_always_one_witness :
    lookupRate (setRate [("USD", (7 : ℚ))] "USD" 1) "USD" = some 1 :=
  usd_always_one [Except.ok [("USD", (7 : ℚ))]] 9
    (setRate [("USD", (7 : ℚ))] "USD" 1) 9 rfl

/-- C6 counterexample: the direct-pair adapter accepts the bid `-5` (it
parses as a number) and stores the non-positive rate `-5`. -/
theorem positive_rates_refuted :
    lookupRate (awesomeRates [⟨"USD", "BRL", "Dolar", "-5", "0"⟩]) "BRL"
      = some (-5) ∧ ¬ (0 < (-5 : ℚ)) := by
  constructor
  · simp +decide [awesomeRates, awesomeStep, awesomeKey, parseFloat, digitsToNat,
      setRate, lookupRate]
  · norm_num

/-- C6 (amended): the adapters store parsed provider values verbatim with no
positivity filter, so every rate value is positive provided every accepted
provider input is positive: if every bid of the direct-pair response that
parses at all parses to a positive value, and every flat-list rate is
positive, then every value of either adapter's mapping is positive. -/
theorem rates_positive_of_positive_inputs (items : List AwesomeApiItem)
    (data : List WiseRateInfo)
    (h1 : ∀ it ∈ items, ∀ v, parseFloat it.bid = some v → 0 < v)
    (h2 : ∀ info ∈ data, 0 < info.rate) :
    (∀ k w, lookupRate (awesomeRates items) k = some w → 0 < w) ∧
    (∀ k w, lookupRate (wiseRates data) k = some w → 0 < w) := by
  have hnil : ∀ k w, lookupRate ([] : RateMapping) k = some w → 0 < w := by
    intro k w h
    simp [lookupRate] at h
  exact ⟨awesomeFold_pos items [] h1 hnil, wiseFold_pos data [] h2 hnil⟩

/-- Witness for C6 (amended): positive inputs give a positive stored rate. -/
theorem rates_positive_of_positive_inputs_witness :
    lookupRate (awesomeRates [⟨"USD", "BRL", "Dolar", "5", "0"⟩]) "BRL" = some 5 ∧
      0 < (5 : ℚ) := by
  constructor
  · simp +decide [awesomeRates, awesomeStep, awesomeKey, parseFloat, digitsToNat,
      setRate, lookupRate]
  · exact (rates_positive_of_positive_inputs [⟨"USD", "BRL", "Dolar", "5", "0"⟩]
      [⟨"EUR", (2 : ℚ)⟩]
      (by intro it hit v hv
          simp +decide [parseFloat, digitsToNat] at hit hv
          rw [hit] at hv
          simp +decide [parseFloat, digitsToNat] at hv
          rw [← hv]
          norm_num)
      (by intro info hinfo
          simp at hinfo
          rw [hinfo]
          norm_num)).1 "BRL" 5
      (by simp +decide [awesomeRates, awesomeStep, awesomeKey, parseFloat,
        digitsToNat, setRate, lookupRate])

/-- C7: a cache hit returns the cached response unchanged (same status, body
and headers), writes nothing to the cache, and invokes zero fetchers. -/
theorem cache_hit_returns_cached_no_fetch (r : WorkerResponse)
    (results : List (Except String RateMapping)) (now : Nat) :
    handleFetch (some r) results now = ⟨r, none, 0⟩ := rfl

/-- C8 counterexample: at upstream status 500 both adapters fail with fixed
messages that contain no digit at all, hence do not include the status
code. -/
theorem non2xx_cause_counterexample :
    awesomeFetch "tok" 500 [] = Except.error "Awesome API request failed" ∧
    wiseFetch "key" 500 [] = Except.error "Wise API request failed" ∧
    containsDigits "Awesome API request failed" = false ∧
    containsDigits "Wise API request failed" = false := by
  refine ⟨rfl, rfl, by decide, by decide⟩

/-- C8 (amended): on any non-2xx upstream status each adapter fails, but with
a fixed human-readable cause that does not include the status code (the
messages contain no digit characters). -/
theorem non2xx_fails_fixed_message (token key : String) (status : Nat)
    (data : List AwesomeApiItem) (data2 : List WiseRateInfo)
    (htok : token ≠ "") (hkey : key ≠ "") (hst : resOk status = false) :
    awesomeFetch token status data = Except.error "Awesome API request failed" ∧
    wiseFetch key status data2 = Except.error "Wise API request failed" ∧
    containsDigits "Awesome API request failed" = false ∧
    containsDigits "Wise API request failed" = false := by
  refine ⟨?_, ?_, by decide, by decide⟩
  · simp [awesomeFetch, htok, hst]
  · simp [wiseFetch, hkey, hst]

/-- Witness for C8 (amended) at status 500. -/
theorem non2xx_fails_fixed_message_witness :
    ("t" : String) ≠ "" ∧ resOk 500 = false ∧
    awesomeFetch "t" 500 [] = Except.error "Awesome API request failed" :=
  ⟨by decide, by decide,
    (non2xx_fails_fixed_message "t" "k" 500 [] []
      (by decide) (by decide) (by decide)).1⟩

/-- C9: every key the flat-list (Wise) adapter produces is in the configured
FIAT set; after the unconditional USD injection the response keys are fiat
symbols or USD, and no configured ASSET symbol is ever present. -/
theorem wise_only_fiat_symbols (data : List WiseRateInfo) :
    (∀ k w, lookupRate (wiseRates data) k = some w → k ∈ FIAT_SYMBOLS) ∧
    (∀ k w, lookupRate (setRate (wiseRates data) "USD" 1) k = some w →
      k ∈ FIAT_SYMBOLS ∨ k = "USD") ∧
    (∀ a ∈ ASSET_SYMBOLS, lookupRate (setRate (wiseRates data) "USD" 1) a = none) := by
  have hnil : ∀ k w, lookupRate ([] : RateMapping) k = some w → k ∈ FIAT_SYMBOLS := by
    intro k w h
    simp [lookupRate] at h
  have h1 : ∀ k w, lookupRate (wiseRates data) k = some w → k ∈ FIAT_SYMBOLS :=
    wiseFold_keys data [] hnil
  have h2 : ∀ k w, lookupRate (setRate (wiseRates data) "USD" 1) k = some w →
      k ∈ FIAT_SYMBOLS ∨ k = "USD" := by
    intro k w h
    rcases lookupRate_setRate_cases _ _ _ _ _ h with ⟨hk, _⟩ | hold
    · exact Or.inr hk
    · exact Or.inl (h1 k w hold)
  refine ⟨h1, h2, ?_⟩
  intro a ha
  have hall : ∀ x ∈ ASSET_SYMBOLS, x ∉ FIAT_SYMBOLS ∧ x ≠ "USD" := by decide
  have hdis : a ∉ FIAT_SYMBOLS ∧ a ≠ "USD" := hall a ha
  cases hc : lookupRate (setRate (wiseRates data) "USD" 1) a with
  | none => rfl
  | some w =>
    rcases h2 a w hc with hmem | husd
    · exact absurd hmem hdis.1
    · exact absurd husd hdis.2

/-- Witness for C9: with a winning Wise mapping, the asset symbol BTC is
absent from the final rates. -/
theorem wise_only_fiat_symbols_witness :
    lookupRate (setRate (wiseRates [⟨"BRL", (5 : ℚ)⟩]) "USD" 1) "BTC" = none :=
  (wise_only_fiat_symbols [⟨"BRL", (5 : ℚ)⟩]).2.2 "BTC" (by decide)

/-- C10: the direct-pair adapter performs no filtering against the configured
symbol sets — every response item whose bid parses as a number yields an
entry under its derived key, whatever that key is. -/
theorem awesome_no_symbol_filter (data : List AwesomeApiItem)
    (it : AwesomeApiItem) (hmem : it ∈ data) (v : ℚ)
    (hv : parseFloat it.bid = some v) :
    (lookupRate (awesomeRates data) (awesomeKey it)).isSome = true :=
  awesomeFold_mem data it v hv [] hmem

/-- Witness for C10: an item with the unconfigured base code `ZZZ` still
produces an entry, although `ZZZ` is in neither configured symbol set. -/
theorem awesome_no_symbol_filter_witness :
    (lookupRate (awesomeRates [⟨"ZZZ", "USD", "Weird", "2", "0"⟩])
        (awesomeKey ⟨"ZZZ", "USD", "Weird", "2", "0"⟩)).isSome = true ∧
      "ZZZ" ∉ FIAT_SYMBOLS ∧ "ZZZ" ∉ ASSET_SYMBOLS :=
  ⟨awesome_no_symbol_filter [⟨"ZZZ", "USD", "Weird", "2", "0"⟩]
      ⟨"ZZZ", "USD", "Weird", "2", "0"⟩ (by decide) 2
      (by simp +decide [parseFloat, digitsToNat]),
    by decide, by decide⟩

end DollarNow
